import Mathlib

/-!
Verification of the tilelive-pgquery core (lib/PgQuery.js) against its
specification.  The JavaScript source is shallowly embedded: byte buffers
become `List ℕ`, query result rows become lists of cells, the postgres
query call becomes an explicit `Except` value, and the mutable
`pool.pending` counter becomes explicit state passing.  JS values that are
either the string `'auto'` or a boolean (the results of `toBool(v, true)`)
are embedded as `Sum String Bool` with `Sum.inl s` for string values and
`Sum.inr b` for booleans, so that the string comparisons performed by the
source are mirrored exactly.
-/

deriving instance DecidableEq for Except

namespace PgQuery

/-- Bytes of a tile payload (a Node `Buffer`), as a list of byte values. -/
abbrev Bytes := List ℕ

/-- One result row in `rowMode: 'array'`: a list of cells, each a byte/char
sequence.  The first cell is the tile payload, an optional second cell the
hash key. -/
abbrev Row := List Bytes

/-- Errors thrown by the tile-serving path.  Each constructor corresponds to
a distinct `Error` thrown in `lib/PgQuery.js`; errors are distinguished by
their message (`getTile` compares `err.message` against the magical
`'Tile does not exist'` string), so distinct messages are distinct
constructors. -/
inductive TileError where
  /-- The magical `'Tile does not exist'` sentinel (`noTileError`). -/
  | notFound : TileError
  /-- `Invalid (x,y) coordinates (x, y) for zoom=z` from `_getRawTileAsync`. -/
  | invalidXY (z x y : ℤ) : TileError
  /-- `Expected just one row, but got N` from `_getTileAsync`. -/
  | tooManyRows (n : ℕ) : TileError
  /-- `Expected 1 column/2 columns, but got N.` from `_getTileAsync`. -/
  | badColumnCount (n : ℕ) : TileError
  /-- An error raised by the underlying `pool.pg.query` call. -/
  | upstream (e : String) : TileError
deriving DecidableEq

/-- Result of a successful tile fetch: the payload buffer, plus the optional
`key` property attached to it when `useKeyColumn` is set. -/
structure TileResult where
  payload : Bytes
  key : Option Bytes
deriving DecidableEq

/-- Embeds the `maxCoords` precomputation of `init` (lines 100-104):
`for (let z = 0; z <= params.maxzoom; z++) maxCoords.push(z >= minzoom ? 2 ** z : 0)`. -/
def maxCoords (minzoom maxzoom : ℕ) : List ℕ :=
  (List.range (maxzoom + 1)).map (fun z => if z ≥ minzoom then 2 ^ z else 0)

/-- Embeds `validateXY(z, x, y)` (lines 210-216).  JS numbers holding tile
indices are embedded as integers. -/
def validateXY (mc : List ℕ) (z x y : ℤ) : Bool :=
  if z < 0 ∨ z ≥ (mc.length : ℤ) then
    false
  else
    let maxCoord : ℕ := mc.getD z.toNat 0
    !(x < 0 ∨ x ≥ (maxCoord : ℤ) ∨ y < 0 ∨ y ≥ (maxCoord : ℤ))

/-- Outcome of `_getRawTileAsync` (lines 259-282), instrumented with the
state of the chosen pool's `pending` counter.  `queried` records whether the
`pool.pg.query` call was reached, and `pendingDuringQuery` the value of
`pool.pending` while that call was in flight (it equals the entry value when
no query was issued, since the counter is untouched on those paths). -/
structure RawFetchOut where
  result : Except TileError (List Row)
  pendingAfter : ℤ
  queried : Bool
  pendingDuringQuery : ℤ
deriving DecidableEq

/-- Embeds `_getRawTileAsync(z, x, y, pool)` (lines 259-282).  The outcome of
the `pool.pg.query(...)` call on the chosen pool is passed in as `backend`
(`Except.ok` rows, or `Except.error` for a rejected query).  The zoom-range
check throws the `tileDoesNotExist` sentinel; the x/y check throws a
distinct `Invalid (x,y) coordinates` error.  Inside the try block
`pool.pending` is incremented first, a query failure is downgraded to the
sentinel when `errorsAsEmpty` is set, and the finally block decrements
`pending` on every exit path. -/
def getRawTileAsync (minzoom maxzoom : ℕ) (mc : List ℕ) (errorsAsEmpty : Bool)
    (backend : Except String (List Row)) (z x y : ℤ) (pending : ℤ) : RawFetchOut :=
  if z < (minzoom : ℤ) ∨ z > (maxzoom : ℤ) then
    ⟨.error .notFound, pending, false, pending⟩
  else if ¬ validateXY mc z x y then
    ⟨.error (.invalidXY z x y), pending, false, pending⟩
  else
    let p1 := pending + 1
    let res : Except TileError (List Row) :=
      match backend with
      | .ok rows => .ok rows
      | .error e => if errorsAsEmpty then .error .notFound else .error (.upstream e)
    ⟨res, p1 - 1, true, p1⟩

/-- Embeds the row-processing tail of `_getTileAsync` (lines 230-257): the
row-count check, the column-count check against `useKeyColumn`, the
empty-payload check, the optional gzip step (`gz` stands for zlib's gzip)
and the attachment of the key column. -/
def processRows (useKeyColumn gzip : Bool) (gz : Bytes → Bytes)
    (rows : List Row) : Except TileError TileResult :=
  match rows with
  | [] => .error .notFound
  | row :: rest =>
    if rest.length + 1 > 1 then
      .error (.tooManyRows (rest.length + 1))
    else if row.length ≠ (if useKeyColumn then 2 else 1) then
      .error (.badColumnCount row.length)
    else
      let value := row.getD 0 []
      if value ≠ [] then
        let value2 := if gzip then gz value else value
        .ok ⟨value2, if useKeyColumn then some (row.getD 1 []) else none⟩
      else
        .error .notFound

/-- Embeds `_getTileAsync` (lines 218-257) for the pool chosen by the
dispatcher: the raw fetch (validation, query, error downgrade, pending
bookkeeping) followed by row processing. -/
def getTileAsync (minzoom maxzoom : ℕ) (mc : List ℕ) (errorsAsEmpty : Bool)
    (useKeyColumn gzip : Bool) (gz : Bytes → Bytes)
    (backend : Except String (List Row)) (z x y : ℤ) (pending : ℤ) :
    Except TileError TileResult × ℤ :=
  let out := getRawTileAsync minzoom maxzoom mc errorsAsEmpty backend z x y pending
  match out.result with
  | .error e => (.error e, out.pendingAfter)
  | .ok rows => (processRows useKeyColumn gzip gz rows, out.pendingAfter)

/-- One entry of `this.pgpools` as far as dispatching is concerned: the
`pending` in-flight counter and the `multiplier` weight
(`largestMaxpool / max`, computed by `createPgPool`).  JS floating-point
arithmetic on these small integer ratios is embedded as exact rationals. -/
structure PgPool where
  multiplier : ℚ
  pending : ℤ
deriving DecidableEq

/-- Load score of a pool as used by the dispatcher loop:
`pl.multiplier * pl.pending`. -/
def score (p : PgPool) : ℚ :=
  p.multiplier * (p.pending : ℚ)

/-- Embeds `const largestMaxpool = params.maxpool.reduce((a, b) => Math.max(a, b))`
(line 148).  JS `reduce` without an initial value starts from the first
element; it throws on an empty array, which cannot happen since `host` (and
hence `maxpool`) is a required non-empty parameter; the empty case is mapped
to `0`. -/
def largestMaxpool : List ℕ → ℕ
  | [] => 0
  | h :: t => t.foldl max h

/-- Embeds the pool construction of `createPgPool` (lines 150-160), keeping
the dispatch-relevant fields: each pool starts with `pending = 0` and
`multiplier = largestMaxpool / max`. -/
def createPgPool (maxpool : List ℕ) : List PgPool :=
  maxpool.map (fun m => ⟨(largestMaxpool maxpool : ℚ) / (m : ℚ), 0⟩)

/-- Loop body of the dispatcher scan in `_getTileAsync` (lines 220-226),
carrying the best index/pool seen so far and the current loop index: the
best pool is replaced exactly when the candidate's score is strictly
smaller. -/
def pickLoop (bi : ℕ) (bp : PgPool) (i : ℕ) : List PgPool → ℕ × PgPool
  | [] => (bi, bp)
  | pl :: rest =>
    if score pl < score bp then pickLoop i pl (i + 1) rest
    else pickLoop bi bp (i + 1) rest

/-- Embeds the dispatcher selection of `_getTileAsync` (lines 220-226): scan
`this.pgpools`, starting with no pool selected (so the first pool is taken at
index 0), replacing the selection on a strictly smaller
`multiplier * pending`.  Returns the chosen pool together with its index. -/
def pickPool : List PgPool → Option (ℕ × PgPool)
  | [] => none
  | p :: rest => some (pickLoop 0 p 1 rest)

/-- Embeds the `testOnStartup` gate of `init` (lines 112-117).  `testTile` is
the result of `parseTestOnStartup` (`none` when probing is disabled).  The
source compares `this.paramGzip` against a five-character string literal:
the four letters of auto followed by a stray backtick character.  That
literal is reproduced here exactly as it appears in the source. -/
def initTestGate (testTile : Option (ℤ × ℤ × ℤ))
    (paramKey paramGzip : Sum String Bool) : Except String Unit :=
  match testTile with
  | some _ => .ok ()
  | none =>
    if paramKey = Sum.inl "auto" ∨ paramGzip = Sum.inl "auto`" then
      .error "Both key and nogzip parameters must be set to a valid boolean value when testOnStartup is disabled"
    else
      .ok ()

/-- The per-replica `status` object built by `_testSingleServer`
(lines 385-441) for a successful probe: the raw payload bytes, the result of
the trial gunzip (`uncompressed` is meaningful when `isGziped` is true), the
detected presence of the key column, and the hash value (`none` when no
second column was present, mirroring the JS `undefined`). -/
structure ProbeStatus where
  value : Bytes
  uncompressed : Bytes
  isGziped : Bool
  useKeyColumn : Bool
  hash : Option String
deriving DecidableEq

/-- The negotiated response contract written by `testOnStartupAsync`:
`this.useKeyColumn`, `this.gzip` and the `Content-Type` /
`Content-Encoding` headers. -/
structure Negotiated where
  useKeyColumn : Bool
  gzip : Bool
  contentType : Option String
  contentEncoding : Option String
deriving DecidableEq

/-- Embeds the cross-replica consistency loop of `testOnStartupAsync`
(lines 451-466): every replica's payload bytes are compared byte-for-byte
against the first replica's (`info`), then the optional hash values are
compared; the first mismatch throws. -/
def checkConsistency (info : ProbeStatus) : List ProbeStatus → Except String Unit
  | [] => .ok ()
  | r :: rest =>
    if info.value ≠ r.value then
      .error "Tile data from the first server do not match results from another server"
    else if info.hash ≠ r.hash then
      .error "Unexpected tile hash key (optional second column) received"
    else checkConsistency info rest

/-- Embeds the signature detection of `testOnStartupAsync` (lines 468-489)
on the (de)compressed test tile.  The source matches lowercase hex prefixes
of the buffer (`'1a'`/`'28'`, `'ffd8ff'`, `'89504e470d0a1a0a'`); on byte
sequences this is exactly a byte-prefix match.  Returns the detected content
type (`none` when unrecognized) and `resultShouldBeGzip`. -/
def detectContentType (tileData : Bytes) : Option String × Bool :=
  if [0x1a].isPrefixOf tileData ∨ [0x28].isPrefixOf tileData then
    (some "application/x-protobuf", true)
  else if [0xff, 0xd8, 0xff].isPrefixOf tileData then
    (some "image/jpeg", false)
  else if [0x89, 0x50, 0x4e, 0x47, 0x0d, 0x0a, 0x1a, 0x0a].isPrefixOf tileData then
    (some "image/png", false)
  else
    (none, true)

/-- Embeds `testOnStartupAsync` (lines 448-527) from the per-replica probe
statuses onward: cross-replica consistency, content-type detection on the
first replica's (de)compressed tile, the fatal check when detection fails
with `contentType = 'auto'`, the fatal check when the explicit `key`
parameter contradicts the observed column shape, the `gzip` decision, the
content-type override, and the header computation.  A non-`'auto'` string
value of `paramGzip` cannot be produced by `toBool` but would be assigned to
`this.gzip` and be truthy, which `Sum.inl` maps to `true`. -/
def testOnStartupModel (paramContentType paramContentEncoding : String)
    (paramKey paramGzip : Sum String Bool)
    (results : List ProbeStatus) : Except String Negotiated :=
  match results with
  | [] => .error "no probe results"
  | info :: rest =>
    match checkConsistency info rest with
    | .error e => .error e
    | .ok _ =>
      let tileData := if info.isGziped then info.uncompressed else info.value
      let det := detectContentType tileData
      if det.1 = none ∧ paramContentType = "auto" then
        .error "contentType parameter must be set when automatic tile detection cannot determine the type of the tile"
      else if paramKey ≠ Sum.inl "auto" ∧ paramKey ≠ Sum.inr info.useKeyColumn then
        .error "The key parameter is set, but the query returned a different second column shape"
      else
        let gzip : Bool :=
          if paramGzip = Sum.inl "auto" then det.2 && !info.isGziped
          else match paramGzip with
            | Sum.inr b => b
            | Sum.inl s => !s.isEmpty
        let contentType : Option String :=
          if paramContentType ≠ "auto" ∧ some paramContentType ≠ det.1 then
            some paramContentType
          else det.1
        let contentEncoding : Option String :=
          if paramContentEncoding = "auto" then
            if info.isGziped || gzip then some "gzip" else none
          else if paramContentEncoding ≠ "" then some paramContentEncoding
          else none
        .ok ⟨info.useKeyColumn, gzip, contentType, contentEncoding⟩

/-- A concrete invertible byte transform used to instantiate the abstract
gzip parameter `gz` in concrete evaluations: it prepends the gzip magic byte
0x1f.  zlib's gzip itself is an external library; the fetch pipeline only
composes it, so theorems are stated for an arbitrary round-trip pair and
this pair supplies closed instances. -/
def gzModel (l : Bytes) : Bytes := 31 :: l

/-- Left inverse of `gzModel`: drops the prepended byte. -/
def gunzipModel (l : Bytes) : Bytes := l.tail

end PgQuery

namespace PgQuery

/-! ## Helper lemmas -/

/-- The cross-replica consistency loop succeeds exactly when every later
replica's payload and hash agree with the first replica's. -/
theorem checkConsistency_ok_iff (info : ProbeStatus) (l : List ProbeStatus) :
    checkConsistency info l = .ok () ↔
      ∀ r ∈ l, info.value = r.value ∧ info.hash = r.hash := by
  induction l with
  | nil => simp [checkConsistency]
  | cons r rest ih =>
    unfold checkConsistency
    by_cases h1 : info.value ≠ r.value
    · simp only [if_pos h1]
      constructor
      · intro h; cases h
      · intro h
        exact absurd (h r (by simp)).1 h1
    · simp only [if_neg h1]
      push_neg at h1
      by_cases h2 : info.hash ≠ r.hash
      · simp only [if_pos h2]
        constructor
        · intro h; cases h
        · intro h
          exact absurd (h r (by simp)).2 h2
      · simp only [if_neg h2]
        push_neg at h2
        rw [ih]
        constructor
        · intro h s hs
          rcases List.mem_cons.mp hs with rfl | hs'
          · exact ⟨h1, h2⟩
          · exact h s hs'
        · intro h s hs
          exact h s (List.mem_cons_of_mem _ hs)

/-- Characterization of the dispatcher scan loop: it either keeps the
incoming best pool (which is then no worse than every remaining candidate)
or returns a strictly better candidate at some position `k`, minimal among
all candidates and strictly better than every earlier one. -/
theorem pickLoop_spec (rest : List PgPool) : ∀ (bi i : ℕ) (bp : PgPool),
    ((pickLoop bi bp i rest).1 = bi ∧ (pickLoop bi bp i rest).2 = bp ∧
      ∀ m (hm : m < rest.length), score bp ≤ score (rest.get ⟨m, hm⟩))
    ∨ (∃ k, ∃ hk : k < rest.length,
        (pickLoop bi bp i rest).1 = i + k ∧
        (pickLoop bi bp i rest).2 = rest.get ⟨k, hk⟩ ∧
        score (rest.get ⟨k, hk⟩) < score bp ∧
        (∀ m (hm : m < rest.length), score (rest.get ⟨k, hk⟩) ≤ score (rest.get ⟨m, hm⟩)) ∧
        ∀ m (hm : m < rest.length), m < k → score (rest.get ⟨k, hk⟩) < score (rest.get ⟨m, hm⟩)) := by
  induction rest with
  | nil =>
    intro bi i bp
    left
    refine ⟨rfl, rfl, ?_⟩
    intro m hm
    exact absurd hm (by simp)
  | cons pl rest ih =>
    intro bi i bp
    by_cases h : score pl < score bp
    · have heq : pickLoop bi bp i (pl :: rest) = pickLoop i pl (i + 1) rest := by
        simp [pickLoop, h]
      rw [heq]
      rcases ih i (i + 1) pl with ⟨h1, h2, h3⟩ | ⟨k, hk, e1, e2, hlt, hmin, hfirst⟩
      · right
        refine ⟨0, by simp, by simpa using h1, by simpa using h2, h, ?_, ?_⟩
        · intro m hm
          cases m with
          | zero => exact le_refl _
          | succ m' =>
            have hm' : m' < rest.length := by simpa using hm
            exact h3 m' hm'
        · intro m hm hm0
          exact absurd hm0 (by omega)
      · right
        refine ⟨k + 1, by simpa using Nat.succ_lt_succ hk, ?_, ?_, ?_, ?_, ?_⟩
        · rw [e1]; omega
        · rw [e2]; rfl
        · exact lt_trans hlt h
        · intro m hm
          cases m with
          | zero => exact le_of_lt hlt
          | succ m' =>
            have hm' : m' < rest.length := by simpa using hm
            exact hmin m' hm'
        · intro m hm hmk
          cases m with
          | zero => exact hlt
          | succ m' =>
            have hm' : m' < rest.length := by simpa using hm
            exact hfirst m' hm' (by omega)
    · have heq : pickLoop bi bp i (pl :: rest) = pickLoop bi bp (i + 1) rest := by
        simp [pickLoop, h]
      rw [heq]
      rcases ih bi (i + 1) bp with ⟨h1, h2, h3⟩ | ⟨k, hk, e1, e2, hlt, hmin, hfirst⟩
      · left
        refine ⟨h1, h2, ?_⟩
        intro m hm
        cases m with
        | zero => exact not_lt.mp h
        | succ m' =>
          have hm' : m' < rest.length := by simpa using hm
          exact h3 m' hm'
      · right
        refine ⟨k + 1, by simpa using Nat.succ_lt_succ hk, ?_, ?_, hlt, ?_, ?_⟩
        · rw [e1]; omega
        · rw [e2]; rfl
        · intro m hm
          cases m with
          | zero => exact le_of_lt (lt_of_lt_of_le hlt (not_lt.mp h))
          | succ m' =>
            have hm' : m' < rest.length := by simpa using hm
            exact hmin m' hm'
        · intro m hm hmk
          cases m with
          | zero => exact lt_of_lt_of_le hlt (not_lt.mp h)
          | succ m' =>
            have hm' : m' < rest.length := by simpa using hm
            exact hfirst m' hm' (by omega)

/-- The JS-style left fold of `max` dominates its seed and every element. -/
theorem foldl_max_le (t : List ℕ) : ∀ h : ℕ,
    h ≤ t.foldl max h ∧ ∀ c ∈ t, c ≤ t.foldl max h := by
  induction t with
  | nil =>
    intro h
    exact ⟨le_refl _, by intro c hc; cases hc⟩
  | cons a t ih =>
    intro h
    have hfold : (a :: t).foldl max h = t.foldl max (max h a) := rfl
    rw [hfold]
    obtain ⟨ih1, ih2⟩ := ih (max h a)
    refine ⟨le_trans (le_max_left _ _) ih1, ?_⟩
    intro c hc
    rcases List.mem_cons.mp hc with rfl | hc'
    · exact le_trans (le_max_right _ _) ih1
    · exact ih2 c hc'

/-- The JS-style left fold of `max` lands on its seed or on an element. -/
theorem foldl_max_mem (t : List ℕ) : ∀ h : ℕ, t.foldl max h ∈ h :: t := by
  induction t with
  | nil =>
    intro h
    simp
  | cons a t ih =>
    intro h
    have hfold : (a :: t).foldl max h = t.foldl max (max h a) := rfl
    rw [hfold]
    have := ih (max h a)
    rcases List.mem_cons.mp this with heq | hmem
    · rcases max_choice h a with hm | hm
      · rw [heq, hm]; simp
      · rw [heq, hm]; simp
    · simp [List.mem_cons_of_mem, hmem]

/-- With a coordinate accepted by the validator and a successful query, the
tile fetch reduces to row processing, with the pending counter restored. -/
theorem getTileAsync_valid_ok (minzoom maxzoom : ℕ) (mc : List ℕ)
    (errorsAsEmpty useKeyColumn gzip : Bool) (gz : Bytes → Bytes)
    (rows : List Row) (z x y pending : ℤ)
    (hz1 : (minzoom : ℤ) ≤ z) (hz2 : z ≤ (maxzoom : ℤ))
    (hxy : validateXY mc z x y = true) :
    getTileAsync minzoom maxzoom mc errorsAsEmpty useKeyColumn gzip gz
        (.ok rows) z x y pending
      = (processRows useKeyColumn gzip gz rows, pending) := by
  have h1 : ¬(z < (minzoom : ℤ) ∨ z > (maxzoom : ℤ)) := by omega
  have h2 : ¬¬(validateXY mc z x y = true) := not_not_intro hxy
  simp only [getTileAsync, getRawTileAsync, if_neg h1, if_neg h2]
  have hp : pending + 1 - 1 = pending := by omega
  rw [hp]

/-! ## Claim theorems -/

/-- C9: the validator precomputes, once, `maxCoord[z]` for every `z` in
`[0, maxzoom]` as `2^z` if `z ≥ minzoom` and `0` otherwise, and
`validate(z,x,y)` returns true if and only if `0 ≤ z < len(maxCoord)` and
`0 ≤ x < maxCoord[z]` and `0 ≤ y < maxCoord[z]`; in particular it returns
false for every `z` below minzoom or above maxzoom. -/
theorem coordinate_validator_c9 (minzoom maxzoom : ℕ) :
    (maxCoords minzoom maxzoom).length = maxzoom + 1 ∧
    (∀ z : ℕ, z ≤ maxzoom →
      (maxCoords minzoom maxzoom).getD z 0 = if minzoom ≤ z then 2 ^ z else 0) ∧
    (∀ z x y : ℤ,
      validateXY (maxCoords minzoom maxzoom) z x y = true ↔
        0 ≤ z ∧ z < ((maxCoords minzoom maxzoom).length : ℤ) ∧
        0 ≤ x ∧ x < ((maxCoords minzoom maxzoom).getD z.toNat 0 : ℤ) ∧
        0 ≤ y ∧ y < ((maxCoords minzoom maxzoom).getD z.toNat 0 : ℤ)) ∧
    (∀ z x y : ℤ, z < (minzoom : ℤ) ∨ z > (maxzoom : ℤ) →
      validateXY (maxCoords minzoom maxzoom) z x y = false) := by
  refine ⟨by simp [maxCoords], ?_, ?_, ?_⟩
  · intro z hz
    have h : z < ((List.range (maxzoom + 1)).map
        (fun w => if w ≥ minzoom then 2 ^ w else 0)).length := by
      simp; omega
    rw [maxCoords, List.getD_eq_getElem _ _ h]
    simp
  · intro z x y
    unfold validateXY
    by_cases h1 : z < 0 ∨ z ≥ ((maxCoords minzoom maxzoom).length : ℤ)
    · simp only [if_pos h1]
      simp only [Bool.false_eq_true, false_iff]
      rintro ⟨hz0, hzlen, -⟩
      omega
    · simp only [if_neg h1]
      simp only [Bool.not_eq_true', decide_eq_false_iff_not]
      push_neg at h1
      constructor
      · intro h
        push_neg at h
        refine ⟨h1.1, h1.2, ?_⟩
        omega
      · intro h
        push_neg
        omega
  · intro z x y h
    unfold validateXY
    by_cases h1 : z < 0 ∨ z ≥ ((maxCoords minzoom maxzoom).length : ℤ)
    · simp only [if_pos h1]
    · simp only [if_neg h1]
      push_neg at h1
      have hlen : (maxCoords minzoom maxzoom).length = maxzoom + 1 := by
        simp [maxCoords]
      have hget : (maxCoords minzoom maxzoom).getD z.toNat 0 = 0 := by
        have hzl : z.toNat < ((List.range (maxzoom + 1)).map
            (fun w => if w ≥ minzoom then 2 ^ w else 0)).length := by
          simp; omega
        rw [maxCoords, List.getD_eq_getElem _ _ hzl]
        simp
        omega
      rw [hget]
      simp only [Bool.not_eq_false']
      rw [decide_eq_true_iff]
      omega

/-- C9 witness: concrete evaluations of the validator obtained from
`coordinate_validator_c9` at `minzoom = 2`, `maxzoom = 4`. -/
theorem coordinate_validator_c9_witness :
    (maxCoords 2 4).getD 3 0 = 8 ∧
    validateXY (maxCoords 2 4) 3 2 7 = true ∧
    validateXY (maxCoords 2 4) 1 0 0 = false ∧
    validateXY (maxCoords 2 4) 5 0 0 = false := by
  have h := coordinate_validator_c9 2 4
  refine ⟨(h.2.1 3 (by decide)).trans (by decide), ?_, ?_, ?_⟩
  · exact (h.2.2.1 3 2 7).2 (by decide)
  · exact h.2.2.2 1 0 0 (by decide)
  · exact h.2.2.2 5 0 0 (by decide)

/-- C1 counterexample: with `minzoom = 0`, `maxzoom = 14`, the coordinate
`(0, 0, 1)` has `z` in the zoom range but `y` outside `[0, 2^0)`; the fetch
throws the distinct invalid-coordinates error, not the NotFound sentinel,
refuting the claim that every failed validation yields NotFound. -/
theorem fetch_invalid_c1_counterexample :
    (getRawTileAsync 0 14 (maxCoords 0 14) false (.ok []) 0 0 1 0).result
      = .error (.invalidXY 0 0 1) ∧
    (Except.error (TileError.invalidXY 0 0 1) : Except TileError (List Row))
      ≠ .error .notFound := by
  exact ⟨by decide, by decide⟩

/-- C1 (amended): a coordinate with `z` outside `[minzoom, maxzoom]` makes
fetch yield the NotFound sentinel with no backend query issued; a coordinate
with `z` in range but `x` or `y` outside `[0, 2^z)` makes fetch yield the
distinct invalid-coordinates error (not NotFound), likewise with no backend
query issued. -/
theorem fetch_invalid_coordinate_c1 (minzoom maxzoom : ℕ) (errorsAsEmpty : Bool)
    (backend : Except String (List Row)) (z x y pending : ℤ) :
    (z < (minzoom : ℤ) ∨ z > (maxzoom : ℤ) →
      (getRawTileAsync minzoom maxzoom (maxCoords minzoom maxzoom) errorsAsEmpty
          backend z x y pending).result = .error .notFound ∧
      (getRawTileAsync minzoom maxzoom (maxCoords minzoom maxzoom) errorsAsEmpty
          backend z x y pending).queried = false) ∧
    ((minzoom : ℤ) ≤ z ∧ z ≤ (maxzoom : ℤ) ∧
        validateXY (maxCoords minzoom maxzoom) z x y = false →
      (getRawTileAsync minzoom maxzoom (maxCoords minzoom maxzoom) errorsAsEmpty
          backend z x y pending).result = .error (.invalidXY z x y) ∧
      (getRawTileAsync minzoom maxzoom (maxCoords minzoom maxzoom) errorsAsEmpty
          backend z x y pending).queried = false) := by
  constructor
  · intro h
    unfold getRawTileAsync
    simp only [if_pos h]
    exact ⟨trivial, trivial⟩
  · rintro ⟨h1, h2, h3⟩
    have hnot : ¬(z < (minzoom : ℤ) ∨ z > (maxzoom : ℤ)) := by omega
    have hxy : ¬ validateXY (maxCoords minzoom maxzoom) z x y = true := by
      simp [h3]
    unfold getRawTileAsync
    simp only [if_neg hnot, if_pos hxy]
    exact ⟨trivial, trivial⟩

/-- C1 witness: `fetch_invalid_coordinate_c1` applied at `minzoom = 0`,
`maxzoom = 14` with the out-of-range zoom `15` and the in-range zoom `0`
with invalid `y = 1`. -/
theorem fetch_invalid_coordinate_c1_witness :
    (getRawTileAsync 0 14 (maxCoords 0 14) false (.ok []) 15 0 0 0).result
      = .error .notFound ∧
    (getRawTileAsync 0 14 (maxCoords 0 14) false (.ok []) 0 0 1 0).queried
      = false :=
  ⟨((fetch_invalid_coordinate_c1 0 14 false (.ok []) 15 0 0 0).1 (by decide)).1,
   ((fetch_invalid_coordinate_c1 0 14 false (.ok []) 0 0 1 0).2 (by decide)).2⟩

/-- C4: the chosen pool's `pending` counter is incremented immediately
before the backend query and decremented on every exit path, so after the
raw fetch it equals its entry value; if it was nonnegative on entry it
stays nonnegative throughout, including while the query is in flight. -/
theorem pending_counter_c4 (minzoom maxzoom : ℕ) (mc : List ℕ)
    (errorsAsEmpty : Bool) (backend : Except String (List Row))
    (z x y pending : ℤ) :
    (getRawTileAsync minzoom maxzoom mc errorsAsEmpty backend z x y
        pending).pendingAfter = pending ∧
    ((getRawTileAsync minzoom maxzoom mc errorsAsEmpty backend z x y
        pending).queried = true →
      (getRawTileAsync minzoom maxzoom mc errorsAsEmpty backend z x y
        pending).pendingDuringQuery = pending + 1) ∧
    (0 ≤ pending →
      0 ≤ (getRawTileAsync minzoom maxzoom mc errorsAsEmpty backend z x y
            pending).pendingAfter ∧
      0 ≤ (getRawTileAsync minzoom maxzoom mc errorsAsEmpty backend z x y
            pending).pendingDuringQuery) := by
  by_cases h1 : z < (minzoom : ℤ) ∨ z > (maxzoom : ℤ)
  · unfold getRawTileAsync
    simp only [if_pos h1]
    exact ⟨trivial, by simp, fun hp => ⟨hp, hp⟩⟩
  · by_cases h2 : ¬ validateXY mc z x y = true
    · unfold getRawTileAsync
      simp only [if_neg h1, if_pos h2]
      exact ⟨trivial, by simp, fun hp => ⟨hp, hp⟩⟩
    · unfold getRawTileAsync
      simp only [if_neg h1, if_neg h2]
      refine ⟨?_, fun _ => trivial, fun hp => ⟨?_, ?_⟩⟩
      · show pending + 1 - 1 = pending
        omega
      · show 0 ≤ pending + 1 - 1
        omega
      · show 0 ≤ pending + 1
        omega

/-- C4 witness: `pending_counter_c4` at a concrete successful fetch with
`pending = 0`: the counter was `1` during the query and `0` after. -/
theorem pending_counter_c4_witness :
    (getRawTileAsync 0 14 (maxCoords 0 14) false (.ok [[[1]]]) 0 0 0
        0).pendingDuringQuery = 0 + 1 ∧
    0 ≤ (getRawTileAsync 0 14 (maxCoords 0 14) false (.ok [[[1]]]) 0 0 0
        0).pendingAfter :=
  ⟨(pending_counter_c4 0 14 (maxCoords 0 14) false (.ok [[[1]]]) 0 0 0 0).2.1
      (by decide),
   ((pending_counter_c4 0 14 (maxCoords 0 14) false (.ok [[[1]]]) 0 0 0 0).2.2
      (by decide)).1⟩

/-- C5: for every fetch of a valid coordinate, zero result rows yield the
NotFound sentinel; more than one row yields the too-many-rows shape error;
a single row whose column count is not exactly 1 (without key column) or 2
(with key column) yields the column-count shape error; and a present but
zero-length payload yields NotFound exactly as if there were no rows. -/
theorem row_shape_policy_c5 (minzoom maxzoom : ℕ) (mc : List ℕ)
    (errorsAsEmpty useKeyColumn gzip : Bool) (gz : Bytes → Bytes)
    (z x y pending : ℤ)
    (hz1 : (minzoom : ℤ) ≤ z) (hz2 : z ≤ (maxzoom : ℤ))
    (hxy : validateXY mc z x y = true) :
    ((getTileAsync minzoom maxzoom mc errorsAsEmpty useKeyColumn gzip gz
        (.ok []) z x y pending).1 = .error .notFound) ∧
    (∀ row rows, rows ≠ [] →
      (getTileAsync minzoom maxzoom mc errorsAsEmpty useKeyColumn gzip gz
          (.ok (row :: rows)) z x y pending).1
        = .error (.tooManyRows (rows.length + 1))) ∧
    (∀ row : Row, row.length ≠ (if useKeyColumn then 2 else 1) →
      (getTileAsync minzoom maxzoom mc errorsAsEmpty useKeyColumn gzip gz
          (.ok [row]) z x y pending).1 = .error (.badColumnCount row.length)) ∧
    (∀ row : Row, row.length = (if useKeyColumn then 2 else 1) →
      row.getD 0 [] = [] →
      (getTileAsync minzoom maxzoom mc errorsAsEmpty useKeyColumn gzip gz
          (.ok [row]) z x y pending).1 = .error .notFound) := by
  refine ⟨?_, ?_, ?_, ?_⟩
  · rw [getTileAsync_valid_ok _ _ _ _ _ _ _ _ _ _ _ _ hz1 hz2 hxy]
    rfl
  · intro row rows hne
    rw [getTileAsync_valid_ok _ _ _ _ _ _ _ _ _ _ _ _ hz1 hz2 hxy]
    show processRows useKeyColumn gzip gz (row :: rows) = _
    simp only [processRows]
    rw [if_pos (by cases rows with | nil => exact absurd rfl hne | cons a t => simp)]
  · intro row hcol
    rw [getTileAsync_valid_ok _ _ _ _ _ _ _ _ _ _ _ _ hz1 hz2 hxy]
    show processRows useKeyColumn gzip gz [row] = _
    simp only [processRows]
    rw [if_neg (by simp), if_pos hcol]
  · intro row hcol hval
    rw [getTileAsync_valid_ok _ _ _ _ _ _ _ _ _ _ _ _ hz1 hz2 hxy]
    show processRows useKeyColumn gzip gz [row] = _
    simp only [processRows]
    rw [if_neg (by simp), if_neg (not_not_intro hcol), if_neg (not_not_intro hval)]

/-- C5 witness: `row_shape_policy_c5` applied at `minzoom = 0`,
`maxzoom = 14`, coordinate `(1, 0, 0)`, without key column: zero rows give
NotFound, two rows give the row-count shape error, a two-column row gives
the column-count shape error, and an empty payload gives NotFound. -/
theorem row_shape_policy_c5_witness :
    ((getTileAsync 0 14 (maxCoords 0 14) false false false gzModel
        (.ok []) 1 0 0 0).1 = .error .notFound) ∧
    ((getTileAsync 0 14 (maxCoords 0 14) false false false gzModel
        (.ok [[[1]], [[2]]]) 1 0 0 0).1 = .error (.tooManyRows 2)) ∧
    ((getTileAsync 0 14 (maxCoords 0 14) false false false gzModel
        (.ok [[[1], [2]]]) 1 0 0 0).1 = .error (.badColumnCount 2)) ∧
    ((getTileAsync 0 14 (maxCoords 0 14) false false false gzModel
        (.ok [[[]]]) 1 0 0 0).1 = .error .notFound) := by
  have h := row_shape_policy_c5 0 14 (maxCoords 0 14) false false false gzModel
    1 0 0 0 (by decide) (by decide) (by decide)
  exact ⟨h.1, h.2.1 [[1]] [[[2]]] (by decide), h.2.2.1 [[1], [2]] (by decide),
    h.2.2.2 [[]] (by decide) (by decide)⟩

/-- C8: with the errors-as-empty policy enabled, a backend query failure on
a valid coordinate is converted to the NotFound sentinel; with the policy
disabled the upstream error propagates unmodified; and on a successful
query the outcome — including the shape errors — is identical under both
settings, so shape errors are never downgraded. -/
theorem errors_as_empty_c8 (minzoom maxzoom : ℕ) (mc : List ℕ)
    (useKeyColumn gzip : Bool) (gz : Bytes → Bytes)
    (z x y pending : ℤ) (e : String)
    (hz1 : (minzoom : ℤ) ≤ z) (hz2 : z ≤ (maxzoom : ℤ))
    (hxy : validateXY mc z x y = true) :
    ((getRawTileAsync minzoom maxzoom mc true (.error e) z x y
        pending).result = .error .notFound) ∧
    ((getRawTileAsync minzoom maxzoom mc false (.error e) z x y
        pending).result = .error (.upstream e)) ∧
    (∀ rows : List Row,
      (getTileAsync minzoom maxzoom mc true useKeyColumn gzip gz
          (.ok rows) z x y pending).1
        = (getTileAsync minzoom maxzoom mc false useKeyColumn gzip gz
            (.ok rows) z x y pending).1) := by
  have h1 : ¬(z < (minzoom : ℤ) ∨ z > (maxzoom : ℤ)) := by omega
  have h2 : ¬¬(validateXY mc z x y = true) := not_not_intro hxy
  refine ⟨?_, ?_, ?_⟩
  · unfold getRawTileAsync
    simp [h1, h2, hxy]
  · unfold getRawTileAsync
    simp [h1, h2, hxy]
  · intro rows
    rw [getTileAsync_valid_ok _ _ _ _ _ _ _ _ _ _ _ _ hz1 hz2 hxy,
      getTileAsync_valid_ok _ _ _ _ _ _ _ _ _ _ _ _ hz1 hz2 hxy]

/-- C8 witness: `errors_as_empty_c8` at `minzoom = 0`, `maxzoom = 14`,
coordinate `(1, 0, 0)`, with a failing backend: enabled policy yields
NotFound, disabled policy yields the upstream error, and a successful
two-row query yields the same shape error under both settings. -/
theorem errors_as_empty_c8_witness :
    ((getRawTileAsync 0 14 (maxCoords 0 14) true (.error "boom") 1 0 0
        0).result = .error .notFound) ∧
    ((getRawTileAsync 0 14 (maxCoords 0 14) false (.error "boom") 1 0 0
        0).result = .error (.upstream "boom")) ∧
    ((getTileAsync 0 14 (maxCoords 0 14) true false false gzModel
        (.ok [[[1]], [[2]]]) 1 0 0 0).1
      = (getTileAsync 0 14 (maxCoords 0 14) false false false gzModel
          (.ok [[[1]], [[2]]]) 1 0 0 0).1) := by
  have h := errors_as_empty_c8 0 14 (maxCoords 0 14) false false gzModel
    1 0 0 0 "boom" (by decide) (by decide) (by decide)
  exact ⟨h.1, h.2.1, h.2.2 [[[1]], [[2]]]⟩

/-- C2 (code bug): with probing disabled, the guard that should reject an
unset compression decision is dead code, because the source compares
`this.paramGzip` against a misspelled literal (auto with a trailing
backtick) that `toBool` can never produce.  An explicit key setting with
`gzip` left in the auto state therefore passes the gate, contradicting the
gate's own error message; only an auto key setting is still caught. -/
theorem init_gate_c2_code_bug :
    (∀ b : Bool, initTestGate none (Sum.inr b) (Sum.inl "auto") = .ok ()) ∧
    initTestGate none (Sum.inl "auto") (Sum.inr true)
      = .error "Both key and nogzip parameters must be set to a valid boolean value when testOnStartup is disabled" := by
  constructor
  · intro b
    cases b <;> rfl
  · rfl

/-- C3 counterexample: an explicitly configured `gzip = true` together with
a backend that already delivers compressed bytes (the startup probe saw
`isGziped`) negotiates `shouldCompress = true`, and the fetch then
compresses the already-compressed payload again: the returned payload
differs from the backend's bytes, refuting the claim that a payload the
backend delivered compressed is always passed through unchanged. -/
theorem compression_c3_counterexample :
    testOnStartupModel "auto" "auto" (Sum.inr false) (Sum.inr true)
        [⟨gzModel [26, 7], [26, 7], true, false, none⟩]
      = .ok ⟨false, true, some "application/x-protobuf", some "gzip"⟩ ∧
    (getTileAsync 0 14 (maxCoords 0 14) false false true gzModel
        (.ok [[gzModel [26, 7]]]) 0 0 0 0).1
      = .ok ⟨gzModel (gzModel [26, 7]), none⟩ ∧
    gzModel (gzModel [26, 7]) ≠ gzModel [26, 7] ∧
    gunzipModel (gzModel [26, 7]) = [26, 7] :=
  ⟨by decide, by decide, by decide, by decide⟩

/-- C3 (amended): for every successful fetch, when the negotiated
`shouldCompress` is true the returned payload is the gzip of the backend's
bytes, so it gunzips to exactly those bytes; when compression is left to
auto-negotiation and the startup probe observed backend-compressed data the
negotiated `shouldCompress` is false; and when `shouldCompress` is false
the payload passes through unchanged.  An explicit `gzip = true` override,
however, compresses even already-compressed payloads (see the
counterexample), so no-double-compression holds only for the
auto-negotiated decision. -/
theorem compression_policy_c3 (gz gun : Bytes → Bytes)
    (hround : ∀ l, gun (gz l) = l)
    (minzoom maxzoom : ℕ) (mc : List ℕ) (errorsAsEmpty : Bool)
    (z x y pending : ℤ)
    (hz1 : (minzoom : ℤ) ≤ z) (hz2 : z ≤ (maxzoom : ℤ))
    (hxy : validateXY mc z x y = true) :
    (∀ (useKeyColumn : Bool) (v h : Bytes), v ≠ [] →
      (getTileAsync minzoom maxzoom mc errorsAsEmpty useKeyColumn true gz
          (.ok [if useKeyColumn then [v, h] else [v]]) z x y pending).1
        = .ok ⟨gz v, if useKeyColumn then some h else none⟩ ∧
      gun (gz v) = v) ∧
    (∀ (pct pce : String) (pk : Sum String Bool) (info : ProbeStatus)
        (rest : List ProbeStatus) (nf : Negotiated),
      info.isGziped = true →
      testOnStartupModel pct pce pk (Sum.inl "auto") (info :: rest) = .ok nf →
      nf.gzip = false) ∧
    (∀ (useKeyColumn : Bool) (v h : Bytes), v ≠ [] →
      (getTileAsync minzoom maxzoom mc errorsAsEmpty useKeyColumn false gz
          (.ok [if useKeyColumn then [v, h] else [v]]) z x y pending).1
        = .ok ⟨v, if useKeyColumn then some h else none⟩) := by
  refine ⟨?_, ?_, ?_⟩
  · intro u v h hv
    rw [getTileAsync_valid_ok _ _ _ _ _ _ _ _ _ _ _ _ hz1 hz2 hxy]
    refine ⟨?_, hround v⟩
    cases u with
    | false =>
      show processRows false true gz [[v]] = _
      simp [processRows, hv]
    | true =>
      show processRows true true gz [[v, h]] = _
      simp [processRows, hv]
  · intro pct pce pk info rest nf hgz hok
    rcases hcc : checkConsistency info rest with e | u
    · simp only [testOnStartupModel, hcc] at hok
      cases hok
    · cases u
      simp only [testOnStartupModel, hcc] at hok
      set det := detectContentType
        (if info.isGziped then info.uncompressed else info.value) with hdet
      by_cases hd : det.1 = none ∧ pct = "auto"
      · rw [if_pos hd] at hok
        cases hok
      · rw [if_neg hd] at hok
        by_cases hk : pk ≠ Sum.inl "auto" ∧ pk ≠ Sum.inr info.useKeyColumn
        · rw [if_pos hk] at hok
          cases hok
        · rw [if_neg hk] at hok
          have hval := Except.ok.inj hok
          rw [← hval]
          simp [hgz]
  · intro u v h hv
    rw [getTileAsync_valid_ok _ _ _ _ _ _ _ _ _ _ _ _ hz1 hz2 hxy]
    cases u with
    | false =>
      show processRows false false gz [[v]] = _
      simp [processRows, hv]
    | true =>
      show processRows true false gz [[v, h]] = _
      simp [processRows, hv]

/-- C3 witness: `compression_policy_c3` instantiated with the concrete
round-trip pair `gzModel`/`gunzipModel` at coordinate `(1, 0, 0)`: with
compression on, the fetch returns the compressed payload, which
decompresses back to the backend bytes; with compression off the payload
is unchanged. -/
theorem compression_policy_c3_witness :
    (getTileAsync 0 14 (maxCoords 0 14) false false true gzModel
        (.ok [[[5, 6]]]) 1 0 0 0).1 = .ok ⟨gzModel [5, 6], none⟩ ∧
    gunzipModel (gzModel [5, 6]) = [5, 6] ∧
    (getTileAsync 0 14 (maxCoords 0 14) false false false gzModel
        (.ok [[[5, 6]]]) 1 0 0 0).1 = .ok ⟨[5, 6], none⟩ := by
  have h := compression_policy_c3 gzModel gunzipModel (fun l => rfl) 0 14
    (maxCoords 0 14) false 1 0 0 0 (by decide) (by decide) (by decide)
  have h1 := h.1 false [5, 6] [] (by decide)
  have h3 := h.2.2 false [5, 6] [] (by decide)
  exact ⟨h1.1, h1.2, h3⟩

/-- C6: for every non-empty pool list the dispatcher returns the pool at
the least index attaining the minimal `multiplier * pending` score (strictly
smaller than every earlier pool's score, no larger than any other), and
`createPgPool` assigns every pool the weight `largestMaxpool / capacity`,
where `largestMaxpool` is the maximum capacity across replicas. -/
theorem dispatcher_pick_c6 :
    (∀ pools : List PgPool, pools ≠ [] →
      ∃ k, ∃ hk : k < pools.length,
        pickPool pools = some (k, pools.get ⟨k, hk⟩) ∧
        (∀ m (hm : m < pools.length),
          score (pools.get ⟨k, hk⟩) ≤ score (pools.get ⟨m, hm⟩)) ∧
        (∀ m (hm : m < pools.length), m < k →
          score (pools.get ⟨k, hk⟩) < score (pools.get ⟨m, hm⟩))) ∧
    (∀ maxpool : List ℕ,
      (createPgPool maxpool).map PgPool.multiplier
        = maxpool.map (fun c => (largestMaxpool maxpool : ℚ) / (c : ℚ)) ∧
      (maxpool ≠ [] → largestMaxpool maxpool ∈ maxpool) ∧
      (∀ c ∈ maxpool, c ≤ largestMaxpool maxpool)) := by
  constructor
  · intro pools hne
    match pools with
    | [] => exact absurd rfl hne
    | p :: rest =>
      rcases pickLoop_spec rest 0 1 p with ⟨h1, h2, h3⟩ |
          ⟨k, hk, e1, e2, hlt, hmin, hfirst⟩
      · refine ⟨0, by simp, ?_, ?_, ?_⟩
        · show some (pickLoop 0 p 1 rest) = _
          have he : pickLoop 0 p 1 rest = (0, p) := Prod.ext_iff.mpr ⟨h1, h2⟩
          rw [he]
          rfl
        · intro m hm
          cases m with
          | zero => exact le_refl _
          | succ m' =>
            have hm' : m' < rest.length := by simpa using hm
            exact h3 m' hm'
        · intro m hm hm0
          exact absurd hm0 (by omega)
      · refine ⟨k + 1, by simpa using Nat.succ_lt_succ hk, ?_, ?_, ?_⟩
        · show some (pickLoop 0 p 1 rest) = _
          have he : pickLoop 0 p 1 rest = (k + 1, rest.get ⟨k, hk⟩) := by
            refine Prod.ext_iff.mpr ⟨?_, ?_⟩
            · rw [e1]; omega
            · exact e2
          rw [he]
          rfl
        · intro m hm
          cases m with
          | zero => exact le_of_lt hlt
          | succ m' =>
            have hm' : m' < rest.length := by simpa using hm
            exact hmin m' hm'
        · intro m hm hmk
          cases m with
          | zero => exact hlt
          | succ m' =>
            have hm' : m' < rest.length := by simpa using hm
            exact hfirst m' hm' (by omega)
  · intro maxpool
    refine ⟨?_, ?_, ?_⟩
    · simp [createPgPool, Function.comp]
    · intro hne
      match maxpool with
      | [] => exact absurd rfl hne
      | h :: t =>
        show t.foldl max h ∈ h :: t
        exact foldl_max_mem t h
    · intro c hc
      match maxpool with
      | [] => cases hc
      | h :: t =>
        show c ≤ t.foldl max h
        rcases List.mem_cons.mp hc with rfl | hc'
        · exact (foldl_max_le t c).1
        · exact (foldl_max_le t h).2 c hc'

/-- C6 witness: `dispatcher_pick_c6` applied to a concrete two-pool list
(where the second pool has the smaller score) and to the capacities
`[10, 5]`, whose weights are `[1, 2]`. -/
theorem dispatcher_pick_c6_witness :
    (∃ k, ∃ hk : k < 2,
      pickPool [⟨1, 5⟩, ⟨2, 1⟩]
        = some (k, List.get [⟨1, 5⟩, ⟨2, 1⟩] ⟨k, hk⟩)) ∧
    (createPgPool [10, 5]).map PgPool.multiplier = [1, 2] := by
  constructor
  · obtain ⟨k, hk, h1, -, -⟩ := dispatcher_pick_c6.1 [⟨1, 5⟩, ⟨2, 1⟩] (by decide)
    exact ⟨k, hk, h1⟩
  · rw [(dispatcher_pick_c6.2 [10, 5]).1]
    norm_num [largestMaxpool]

/-- C7: if any replica's probe payload differs byte-for-byte from the first
replica's, or any replica's optional hash value differs from the first
replica's, the startup negotiation fails with an error and produces no
negotiated format at all. -/
theorem startup_consistency_c7 (pct pce : String) (pk pg : Sum String Bool)
    (info : ProbeStatus) (rest : List ProbeStatus) (r : ProbeStatus)
    (hr : r ∈ rest) (hne : r.value ≠ info.value ∨ r.hash ≠ info.hash) :
    ∃ e, testOnStartupModel pct pce pk pg (info :: rest) = .error e := by
  have hnotok : checkConsistency info rest ≠ .ok () := by
    rw [Ne, checkConsistency_ok_iff]
    intro h
    rcases hne with h1 | h1
    · exact h1 ((h r hr).1).symm
    · exact h1 ((h r hr).2).symm
  rcases hcc : checkConsistency info rest with e | u
  · exact ⟨e, by simp only [testOnStartupModel, hcc]⟩
  · cases u
    exact absurd hcc hnotok

/-- C7 witness: `startup_consistency_c7` at two replicas whose payloads
differ. -/
theorem startup_consistency_c7_witness :
    ∃ e, testOnStartupModel "ct" "auto" (Sum.inl "auto") (Sum.inl "auto")
        [⟨[1], [], false, false, none⟩, ⟨[2], [], false, false, none⟩]
      = .error e :=
  startup_consistency_c7 "ct" "auto" (Sum.inl "auto") (Sum.inl "auto")
    ⟨[1], [], false, false, none⟩ [⟨[2], [], false, false, none⟩]
    ⟨[2], [], false, false, none⟩ (by decide) (Or.inl (by decide))

/-- C10: when the key parameter is explicitly configured as a boolean that
disagrees with the probed presence of a valid second column, the startup
negotiation fails with an error: the explicit setting never silently
overrides the observed response shape. -/
theorem explicit_key_mismatch_c10 (pct pce : String) (pg : Sum String Bool)
    (b : Bool) (info : ProbeStatus) (rest : List ProbeStatus)
    (hb : b ≠ info.useKeyColumn) :
    ∃ e, testOnStartupModel pct pce (Sum.inr b) pg (info :: rest) = .error e := by
  rcases hcc : checkConsistency info rest with e | u
  · exact ⟨e, by simp only [testOnStartupModel, hcc]⟩
  · cases u
    simp only [testOnStartupModel, hcc]
    set det := detectContentType
      (if info.isGziped then info.uncompressed else info.value) with hdet
    by_cases h1 : det.1 = none ∧ pct = "auto"
    · exact ⟨_, by rw [if_pos h1]⟩
    · have hcond : (Sum.inr b ≠ Sum.inl "auto" ∧
          (Sum.inr b : Sum String Bool) ≠ Sum.inr info.useKeyColumn) := by
        constructor
        · intro h
          cases h
        · intro h
          exact hb (Sum.inr.inj h)
      exact ⟨_, by rw [if_neg h1, if_pos hcond]⟩

/-- C10 witness: `explicit_key_mismatch_c10` with `key` explicitly `true`
while the probe observed no second column. -/
theorem explicit_key_mismatch_c10_witness :
    ∃ e, testOnStartupModel "ct" "auto" (Sum.inr true) (Sum.inr false)
        [⟨[26], [], false, false, none⟩] = .error e :=
  explicit_key_mismatch_c10 "ct" "auto" (Sum.inr false) true
    ⟨[26], [], false, false, none⟩ [] (by decide)

end PgQuery
